import Mathlib

/-!
A shallow embedding of `parse_pubmed_local.py`, the streaming PubMed
XML-to-JSONL extractor of this repository, together with theorems settling
the specification claims about it.

Modelling decisions:
* An lxml element tree is the inductive `Elem` (tag, attributes, `.text`,
  `.tail`, children), and Python `str.strip` is `pyStrip`.
* The optional external `pubmed_parser` library is absent (`pp = None` in the
  source's guarded import): `_stringify` and `parse_keywords` are embedded as
  their self-contained fallback branches, which are the only branches whose
  code lives in this repository.
* The decompressing reader is `gzip.open` + `etree.iterparse(fh,
  events=("end",))`, modelled as a stream of end events interspersed with
  markup defects and unrecoverable corruption (`ParseItem`); the
  `XMLParser(recover=True, huge_tree=True)` the source constructs is never
  passed to `iterparse`, so both defect classes abort the traversal.
* The filesystem seen by `xml_gz_to_jsonl` is a partial map from path strings
  to file contents.
-/

namespace PubmedParse

/-- An lxml `_Element`: tag, attribute list, `.text`, `.tail`, children. -/
inductive Elem where
  | mk (tag : String) (attrib : List (String × String)) (text : Option String)
       (tail : Option String) (children : List Elem)

def Elem.tag : Elem → String
  | .mk t _ _ _ _ => t

def Elem.attrib : Elem → List (String × String)
  | .mk _ a _ _ _ => a

def Elem.text : Elem → Option String
  | .mk _ _ x _ _ => x

def Elem.tail : Elem → Option String
  | .mk _ _ _ x _ => x

def Elem.children : Elem → List Elem
  | .mk _ _ _ _ c => c

mutual
/-- lxml `node.itertext()`: the node's `.text`, then recursively each child's
itertext followed by that child's `.tail`, in document order. -/
def Elem.itertext : Elem → List String
  | .mk _ _ text _ children => text.toList ++ itertextList children

def itertextList : List Elem → List String
  | [] => []
  | c :: cs => c.itertext ++ c.tail.toList ++ itertextList cs
end

mutual
/-- All proper descendants of an element, in document (pre) order. -/
def Elem.descendants : Elem → List Elem
  | .mk _ _ _ _ children => descList children

def descList : List Elem → List Elem
  | [] => []
  | c :: cs => c :: c.descendants ++ descList cs
end

/-- Python whitespace as `str.strip()` sees it: space, tab, newline, carriage
return, vertical tab, form feed. -/
def isPySpace (c : Char) : Bool :=
  c = ' ' || c = Char.ofNat 9 || c = Char.ofNat 10 || c = Char.ofNat 13
    || c = Char.ofNat 11 || c = Char.ofNat 12

/-- Python `s.strip()`: drop leading and trailing whitespace. -/
def pyStrip (s : String) : String :=
  ⟨((s.toList.dropWhile isPySpace).reverse.dropWhile isPySpace).reverse⟩

/-- `elem.find("Tag")` for a plain tag: first child with that tag. -/
def findChild (e : Elem) (t : String) : Option Elem :=
  (e.children.filter (fun c => c.tag = t)).head?

/-- `elem.findall("Tag")` for a plain tag: all children with that tag. -/
def findChildren (e : Elem) (t : String) : List Elem :=
  e.children.filter (fun c => c.tag = t)

/-- `elem.findall("A/B")`: for each `A` child in order, its `B` children. -/
def findAllPath2 (e : Elem) (t1 t2 : String) : List Elem :=
  (findChildren e t1).flatMap (fun c => findChildren c t2)

/-- `elem.find("A/B")`: first match of the two-step path. -/
def findPath2 (e : Elem) (t1 t2 : String) : Option Elem :=
  (findAllPath2 e t1 t2).head?

/-- `elem.attrib.get(k, "")`. -/
def attrGet (e : Elem) (k : String) : String :=
  (e.attrib.lookup k).getD ""

/-- `_stringify(node)` with `pp = None`: the fallback branch
`" ".join(t.strip() for t in node.itertext() if t and t.strip()).strip()`,
and `""` when the node is `None`. -/
def _stringify (node : Option Elem) : String :=
  match node with
  | none => ""
  | some n =>
    pyStrip (String.intercalate " " ((n.itertext.map pyStrip).filter (fun t => t ≠ "")))

/-- `parse_mesh_terms(medline)`: walk `MeshHeadingList/MeshHeading`, format each
usable `DescriptorName` as `"UI:text"` or bare text, join with `"; "`. -/
def parse_mesh_terms (medline : Elem) : String :=
  match findChild medline "MeshHeadingList" with
  | none => ""
  | some meshList =>
    let out := (findChildren meshList "MeshHeading").filterMap (fun mh =>
      match findChild mh "DescriptorName" with
      | none => none
      | some d =>
        let ui := attrGet d "UI"
        let txt := pyStrip (d.text.getD "")
        if ui ≠ "" ∧ txt ≠ "" then some (ui ++ ":" ++ txt)
        else if txt ≠ "" then some txt
        else none)
    String.intercalate "; " out

/-- The fallback of `parse_pmid`: first `ArticleId` child of
`PubmedData/ArticleIdList` carrying `IdType="pubmed"`, its stripped text when
truthy, else `""`. -/
def parse_pmid_fallback (medline : Elem) : String :=
  match findPath2 medline "PubmedData" "ArticleIdList" with
  | none => ""
  | some articleIds =>
    match (articleIds.children.filter
        (fun c => c.tag = "ArticleId" ∧ c.attrib.lookup "IdType" = some "pubmed")).head? with
    | none => ""
    | some x =>
      match x.text with
      | none => ""
      | some s => if s = "" then "" else pyStrip s

/-- `parse_pmid(medline)`: stripped text of the direct `PMID` child when that
text is truthy, else the `ArticleIdList` fallback. -/
def parse_pmid (medline : Elem) : String :=
  match findChild medline "PMID" with
  | none => parse_pmid_fallback medline
  | some p =>
    match p.text with
    | none => parse_pmid_fallback medline
    | some s => if s = "" then parse_pmid_fallback medline else pyStrip s

/-- `parse_keywords(medline)` with `pp = None`: the fallback branch
`medline.findall(".//KeywordList/Keyword")` (a `KeywordList` descendant at any
depth, then its direct `Keyword` children), keeping stripped non-empty `.text`. -/
def parse_keywords (medline : Elem) : List String :=
  ((medline.descendants.filter (fun d => d.tag = "KeywordList")).flatMap
      (fun kl => findChildren kl "Keyword")).filterMap
    (fun kw => let t := pyStrip (kw.text.getD ""); if t = "" then none else some t)

/-- The `label` computed per `AbstractText` segment:
`a.attrib.get("Label", "") or a.attrib.get("NlmCategory", "")`. -/
def segLabel (a : Elem) : String :=
  let l := attrGet a "Label"
  if l = "" then attrGet a "NlmCategory" else l

/-- The loop body accumulating `parts` in the multi-segment branch of
`parse_title_abstract`: append the label when truthy and not `"UNASSIGNED"`,
then append the segment's stringified text. -/
def partsStep (acc : List String) (a : Elem) : List String :=
  let label := segLabel a
  let acc := if label ≠ "" ∧ label ≠ "UNASSIGNED" then acc ++ [label] else acc
  acc ++ [_stringify (some a)]

/-- `parse_title_abstract(medline)`, returned as the pair (title, abstract).
The multi-segment branch mirrors the source's imperative `parts` accumulation
as a left fold of `partsStep`. -/
def parse_title_abstract (medline : Elem) : String × String :=
  match findChild medline "Article" with
  | none => ("", "")
  | some article =>
    let title := _stringify (findChild article "ArticleTitle")
    let absTexts := findAllPath2 article "Abstract" "AbstractText"
    let abstract :=
      match absTexts with
      | [] => _stringify (findChild article "Abstract")
      | [a] => _stringify (some a)
      | _ =>
        let parts := absTexts.foldl partsStep []
        pyStrip (String.intercalate "\n" (parts.filter (fun p => p ≠ "")))
    (title, abstract)

/-- One output line of the extractor: the JSONL record dict. -/
structure PubmedRecord where
  pmid : String
  docno : String
  title : String
  abstract : String
  mesh_terms : String
  keywords : List String
  is_deleted : Bool
deriving DecidableEq, Repr

/-- `parse_article_record(medline)`: `None` when no pmid resolves, else the
full record. -/
def parse_article_record (medline : Elem) : Option PubmedRecord :=
  let pmid := parse_pmid medline
  if pmid = "" then none
  else
    let ta := parse_title_abstract medline
    some { pmid := pmid, docno := pmid, title := ta.1, abstract := ta.2,
           mesh_terms := parse_mesh_terms medline,
           keywords := parse_keywords medline, is_deleted := false }

/-- A tombstone record for one deleted pmid. -/
def tombstone (pmid : String) : PubmedRecord :=
  { pmid := pmid, docno := pmid, title := "", abstract := "",
    mesh_terms := "", keywords := [], is_deleted := true }

/-- The tombstone yielded for one `PMID` child of a `DeleteCitation` element:
only when its text is truthy and its stripped text is truthy
(`if pmid_node.text and pmid_node.text.strip()`). -/
def delStep (p : Elem) : Option PubmedRecord :=
  match p.text with
  | none => none
  | some s => if s = "" then none else if pyStrip s = "" then none else some (tombstone (pyStrip s))

/-- The body of the `iterparse` loop in `iter_records_from_xml_gz`: the records
yielded for one end event. `MedlineCitation` yields the article record when
its pmid resolves; `DeleteCitation` yields one tombstone per `PMID` child with
truthy text and truthy stripped text; anything else yields nothing. -/
def processEvent (e : Elem) : List PubmedRecord :=
  if e.tag = "MedlineCitation" then (parse_article_record e).toList
  else if e.tag = "DeleteCitation" then (findChildren e "PMID").filterMap delStep
  else []

/-- The record stream over a sequence of end events. -/
def iterRecordsEvents (events : List Elem) : List PubmedRecord :=
  events.flatMap processEvent

/-- One item of the Decompressing Tree Reader's markup stream: the end event
of a well-formed element (`ev`), a recoverable-class markup defect — an
unbalanced tag or invalid entity (`markupDefect`) — or unrecoverable
corruption such as a truncated compressed stream (`fatal`). -/
inductive ParseItem where
  | ev (e : Elem)
  | markupDefect
  | fatal

/-- The reader as the source actually runs it: `etree.iterparse(fh,
events=("end",))`. The `etree.XMLParser(recover=True, huge_tree=True)` built
on the line above that call is never passed to `iterparse` (lxml's
`iterparse` takes parse options as its own keyword arguments), so best-effort
recovery is not enabled: a markup defect raises `XMLSyntaxError` and aborts
the traversal exactly like unrecoverable corruption, after the events already
delivered. `true` flags the abort. -/
def readerEvents : List ParseItem → List Elem × Bool
  | [] => ([], false)
  | .ev e :: rest => let r := readerEvents rest; (e :: r.1, r.2)
  | .markupDefect :: _ => ([], true)
  | .fatal :: _ => ([], true)

/-- `iter_records_from_xml_gz`: the reader's surviving events fed through the
loop body, paired with whether a fatal reader error aborted the traversal
(records yielded before the abort are still delivered to the consumer). -/
def iter_records_from_xml_gz (items : List ParseItem) : List PubmedRecord × Bool :=
  let r := readerEvents items
  (iterRecordsEvents r.1, r.2)

/-! ### The shard writer (`xml_gz_to_jsonl`) and its filesystem -/

/-- The double-quote character. -/
def qCh : Char := Char.ofNat 34

/-- The backslash character. -/
def bsCh : Char := Char.ofNat 92

def qS : String := String.singleton qCh

def bsS : String := String.singleton bsCh

def hexDigit (n : Nat) : Char :=
  if n < 10 then Char.ofNat (48 + n) else Char.ofNat (87 + n)

/-- One character escaped as Python `json.dumps` (with `ensure_ascii=False`)
renders it inside a string literal. -/
def escChar (c : Char) : String :=
  if c = qCh then bsS ++ qS
  else if c = bsCh then bsS ++ bsS
  else if c = Char.ofNat 10 then bsS ++ "n"
  else if c = Char.ofNat 9 then bsS ++ "t"
  else if c = Char.ofNat 13 then bsS ++ "r"
  else if c = Char.ofNat 8 then bsS ++ "b"
  else if c = Char.ofNat 12 then bsS ++ "f"
  else if c.toNat < 32 then
    bsS ++ "u00" ++ String.singleton (hexDigit (c.toNat / 16))
      ++ String.singleton (hexDigit (c.toNat % 16))
  else String.singleton c

/-- A JSON string literal. -/
def jstr (s : String) : String :=
  qS ++ String.join (s.toList.map escChar) ++ qS

/-- `json.dumps(rec, ensure_ascii=False)` for one output record, keys in the
source's insertion order. -/
def dumps (r : PubmedRecord) : String :=
  "\x7b\"pmid\": " ++ jstr r.pmid
    ++ ", \"docno\": " ++ jstr r.docno
    ++ ", \"title\": " ++ jstr r.title
    ++ ", \"abstract\": " ++ jstr r.abstract
    ++ ", \"mesh_terms\": " ++ jstr r.mesh_terms
    ++ ", \"keywords\": [" ++ String.intercalate ", " (r.keywords.map jstr)
    ++ "], \"is_deleted\": " ++ (if r.is_deleted then "true" else "false")
    ++ "\x7d"

/-- The full text written for a record sequence: one `json.dumps` line per
record, each terminated by a newline. -/
def serializeRecords (recs : List PubmedRecord) : String :=
  String.join (recs.map (fun r => dumps r ++ "\n"))

/-- Directory part (through the last slash) and base name of a path string. -/
def baseSplit (p : String) : String × String :=
  let r := p.toList.reverse
  let base := r.takeWhile (fun c => c ≠ '/')
  let dir := r.dropWhile (fun c => c ≠ '/')
  (⟨dir.reverse⟩, ⟨base.reverse⟩)

/-- The base name with its last extension removed, pathlib-style: the part up
to the last dot, except that a lone leading dot carries no extension. -/
def stemChars (cs : List Char) : List Char :=
  let r := cs.reverse
  match r.dropWhile (fun c => c ≠ '.') with
  | [] => cs
  | _ :: rest => if rest = [] then cs else rest.reverse

/-- `pathlib.Path(p).with_suffix(suf)` for ordinary file names: drop the base
name's last extension and append `suf`. -/
def with_suffix (p suf : String) : String :=
  let d := baseSplit p
  d.1 ++ (⟨stemChars d.2.toList⟩ : String) ++ suf

/-- A filesystem: a partial map from path strings to file contents. -/
def FS : Type := String → Option String

/-- Writing (creating or truncating) one file. -/
def FS.write (fs : FS) (p v : String) : FS :=
  fun q => if q = p then some v else fs q

/-- `Path.replace`: atomically rename `src` onto `dst` (no-op when `src` does
not exist, which never happens in the writer's flow). -/
def FS.replaceFile (fs : FS) (src dst : String) : FS :=
  match fs src with
  | none => fs
  | some v => fun q => if q = dst then some v else if q = src then none else fs q

/-- `xml_gz_to_jsonl(gz_path, jsonl_path)`: write every yielded record as one
JSON line to the `.jsonl.partial` temporary path, then — only when the record
sequence was exhausted without a fatal reader error — rename the temporary
onto the final path. A fatal error propagates (`some` error message) with the
temporary left in place and the final path untouched. (The source's
`jsonl_path.parent.mkdir` has no counterpart in this directory-free model.) -/
def xml_gz_to_jsonl (items : List ParseItem) (jsonl_path : String) (fs : FS) :
    FS × Option String :=
  if (iter_records_from_xml_gz items).2 then
    (fs.write (with_suffix jsonl_path ".jsonl.partial")
       (serializeRecords (iter_records_from_xml_gz items).1),
     some "unrecoverable parse failure")
  else
    ((fs.write (with_suffix jsonl_path ".jsonl.partial")
        (serializeRecords (iter_records_from_xml_gz items).1)).replaceFile
       (with_suffix jsonl_path ".jsonl.partial") jsonl_path,
     none)

/-! ### Instrumented memory model for the traversal's `elem.clear()` policy

`etree.iterparse` fires exactly one `end` event per element, in post-order.
The loop clears a `MedlineCitation` or `DeleteCitation` element right after
processing it, and clears any other element at its own end event when it then
has more than 1000 children. A cleared element drops its whole subtree but
itself stays attached to its parent. `residentAfter` counts, after `k` end
events, how many completed element nodes are still reachable (resident). -/

/-- Whether the loop body calls `elem.clear()` at this element's end event. -/
def clearsAt (e : Elem) : Bool :=
  if e.tag = "MedlineCitation" then true
  else if e.tag = "DeleteCitation" then true
  else decide (e.children.length > 1000)

/-- `strictUnder anc node`: `node`'s address lies strictly inside `anc`'s
subtree. -/
def strictUnder : List Nat → List Nat → Bool
  | [], [] => false
  | [], _ :: _ => true
  | _ :: _, [] => false
  | x :: xs, y :: ys => x == y && strictUnder xs ys

mutual
/-- The post-order end events of a subtree, each node paired with its address
(the path of child indices from the document root). -/
def postorderNodes : Elem → List Nat → List (List Nat × Elem)
  | e@(.mk _ _ _ _ children), addr => postorderList children addr 0 ++ [(addr, e)]

def postorderList : List Elem → List Nat → Nat → List (List Nat × Elem)
  | [], _, _ => []
  | c :: cs, addr, i => postorderNodes c (addr ++ [i]) ++ postorderList cs addr (i + 1)
end

/-- After `k` end events of `doc`'s traversal: the number of completed element
nodes not yet freed by any `elem.clear()` call the loop has made. -/
def residentAfter (doc : Elem) (k : Nat) : Nat :=
  let evs := (postorderNodes doc []).take k
  let cleared := (evs.filter (fun pe => clearsAt pe.2)).map (fun pe => pe.1)
  (evs.filter (fun pe => !(cleared.any (fun c => strictUnder c pe.1)))).length

/-! ### Claim-side definitions (worded from the spec's claims) -/

/-- The pubmed-kind entry of the nested external-identifier list, as claim C6
describes it: the `IdType="pubmed"` entry of `PubmedData/ArticleIdList`. -/
def pubmedEntry (m : Elem) : Option Elem :=
  (findPath2 m "PubmedData" "ArticleIdList").bind (fun ids =>
    (ids.children.filter
      (fun c => c.tag = "ArticleId" ∧ c.attrib.lookup "IdType" = some "pubmed")).head?)

/-- Claim C6's fallback clause: the trimmed text of the pubmed-kind entry when
present, otherwise the empty string. -/
def pmidAltSpec (m : Elem) : String :=
  match pubmedEntry m with
  | some x => pyStrip (x.text.getD "")
  | none => ""

/-- Claim C6's identifier-resolution rule: the trimmed text of the direct
`PMID` child when that child exists with non-empty text; otherwise the
fallback clause. -/
def pmidSpec (m : Elem) : String :=
  match findChild m "PMID" with
  | some p =>
    match p.text with
    | some s => if s ≠ "" then pyStrip s else pmidAltSpec m
    | none => pmidAltSpec m
  | none => pmidAltSpec m

/-- One abstract segment's contribution as claim C5 words it: its label
(omitted when absent or equal to the sentinel `"UNASSIGNED"`) followed by its
flattened text. -/
def segParts (a : Elem) : List String :=
  (if segLabel a ≠ "" ∧ segLabel a ≠ "UNASSIGNED" then [segLabel a] else [])
    ++ [_stringify (some a)]

/-- Claim C5's abstract formula read literally: in the multi-segment case the
newline-join of every segment's label-then-text parts, with no part dropped. -/
def claimAbstract (m : Elem) : String :=
  match findChild m "Article" with
  | none => ""
  | some article =>
    match findAllPath2 article "Abstract" "AbstractText" with
    | [] => _stringify (findChild article "Abstract")
    | [a] => _stringify (some a)
    | l => String.intercalate "\n" (l.flatMap segParts)

/-- Claim C5 as amended: in the multi-segment case the empty components are
dropped from the newline-join and the result is whitespace-trimmed. -/
def claimAbstractAmended (m : Elem) : String :=
  match findChild m "Article" with
  | none => ""
  | some article =>
    match findAllPath2 article "Abstract" "AbstractText" with
    | [] => _stringify (findChild article "Abstract")
    | [a] => _stringify (some a)
    | l => pyStrip (String.intercalate "\n" ((l.flatMap segParts).filter (fun p => p ≠ "")))

/-- Claim C7's fallback read literally: the flattened text of every `Keyword`
leaf found at any depth under a `KeywordList` element, trimmed, with empty
strings excluded. -/
def keywordsClaim (m : Elem) : List String :=
  ((m.descendants.filter (fun d => d.tag = "KeywordList")).flatMap
      (fun kl => kl.descendants.filter
        (fun k => k.tag = "Keyword" ∧ k.children.isEmpty))).filterMap
    (fun k => let t := _stringify (some k); if t = "" then none else some t)

/-- Claim C7 as amended: the trimmed non-empty immediate texts of the `Keyword`
elements that are direct children of a `KeywordList` element found at any
depth, in document order. -/
def keywordsAmended (m : Elem) : List String :=
  (((m.descendants.filter (fun d => d.tag = "KeywordList")).flatMap
      (fun kl => findChildren kl "Keyword")).map
    (fun k => pyStrip (k.text.getD ""))).filter (fun t => t ≠ "")

/-! ## Shared sample elements used by witnesses and counterexamples -/

/-- A minimal well-formed citation element carrying only a `PMID` child. -/
def sampleCite (id : String) : Elem :=
  .mk "MedlineCitation" [] none none [.mk "PMID" [] (some id) none []]

/-- A structurally intact citation element with no identifier anywhere. -/
def citeNoId : Elem := .mk "MedlineCitation" [] none none []

/-! ## Shared helper lemmas -/

theorem pyStrip_nil : pyStrip "" = "" := rfl

theorem iter_single (e : Elem) :
    iter_records_from_xml_gz [ParseItem.ev e] = (processEvent e, false) := by
  simp [iter_records_from_xml_gz, readerEvents, iterRecordsEvents]

theorem processEvent_citation (e : Elem) (h : e.tag = "MedlineCitation") :
    processEvent e = (parse_article_record e).toList := by
  unfold processEvent
  rw [h, if_pos rfl]

theorem processEvent_delete (e : Elem) (h : e.tag = "DeleteCitation") :
    processEvent e = (findChildren e "PMID").filterMap delStep := by
  unfold processEvent
  rw [h, if_neg (by decide), if_pos rfl]

theorem processEvent_other (e : Elem) (h1 : e.tag ≠ "MedlineCitation")
    (h2 : e.tag ≠ "DeleteCitation") : processEvent e = [] := by
  unfold processEvent
  rw [if_neg h1, if_neg h2]

theorem delStep_eq_some (c : Elem) (r : PubmedRecord) (h : delStep c = some r) :
    ∃ s, c.text = some s ∧ pyStrip s ≠ "" ∧ r = tombstone (pyStrip s) := by
  unfold delStep at h
  split at h
  · exact absurd h (by simp)
  · rename_i s hs
    split at h
    · exact absurd h (by simp)
    · split at h
      · exact absurd h (by simp)
      · rename_i h2
        exact ⟨s, hs, h2, (Option.some_inj.mp h).symm⟩

theorem delStep_none_strip (c : Elem) (h : delStep c = none) :
    pyStrip (c.text.getD "") = "" := by
  unfold delStep at h
  split at h
  · rename_i hs
    rw [hs]
    rfl
  · rename_i s hs
    rw [hs]
    split at h
    · rename_i h1
      rw [h1]
      rfl
    · split at h
      · rename_i h2
        exact h2
      · exact absurd h (by simp)

theorem map_pmid_filterMap_delStep (l : List Elem) :
    ((l.filterMap delStep).map (fun r => r.pmid))
      = (l.map (fun c => pyStrip (c.text.getD ""))).filter (fun t => t ≠ "") := by
  induction l with
  | nil => rfl
  | cons c cs ih =>
    rw [List.filterMap_cons, List.map_cons, List.filter_cons]
    cases hd : delStep c with
    | none =>
      rw [delStep_none_strip c hd]
      simpa using ih
    | some r =>
      rcases delStep_eq_some c r hd with ⟨s, hs, hne, rfl⟩
      rw [hs]
      simp only [Option.getD_some, List.map_cons]
      rw [if_pos (by simpa using hne)]
      simpa [tombstone] using ih

theorem mem_filterMap_delStep_fields (l : List Elem) (r : PubmedRecord)
    (h : r ∈ l.filterMap delStep) :
    r.docno = r.pmid ∧ r.is_deleted = true ∧ r.title = "" ∧ r.abstract = ""
      ∧ r.mesh_terms = "" ∧ r.keywords = [] := by
  rcases List.mem_filterMap.mp h with ⟨c, _, hc⟩
  rcases delStep_eq_some c r hc with ⟨s, _, _, rfl⟩
  exact ⟨rfl, rfl, rfl, rfl, rfl, rfl⟩

theorem parse_article_record_eq (m : Elem) (h : parse_pmid m ≠ "") :
    parse_article_record m
      = some { pmid := parse_pmid m, docno := parse_pmid m,
               title := (parse_title_abstract m).1,
               abstract := (parse_title_abstract m).2,
               mesh_terms := parse_mesh_terms m,
               keywords := parse_keywords m, is_deleted := false } := by
  unfold parse_article_record
  rw [if_neg h]

theorem parse_article_record_none (m : Elem) (hp : parse_pmid m = "") :
    parse_article_record m = none := by
  unfold parse_article_record
  rw [if_pos hp]

theorem parse_article_record_pmid (m : Elem) (r : PubmedRecord)
    (h : parse_article_record m = some r) : r.pmid = parse_pmid m ∧ r.pmid ≠ "" := by
  by_cases hp : parse_pmid m = ""
  · rw [parse_article_record_none m hp] at h
    exact absurd h (by simp)
  · rw [parse_article_record_eq m hp] at h
    have := (Option.some_inj.mp h).symm
    subst this
    exact ⟨rfl, hp⟩

theorem mem_processEvent_pmid_ne (e : Elem) (r : PubmedRecord)
    (h : r ∈ processEvent e) : r.pmid ≠ "" := by
  unfold processEvent at h
  split at h
  · cases hr : parse_article_record e with
    | none => rw [hr] at h; simp at h
    | some r2 =>
      rw [hr] at h
      simp only [Option.toList_some, List.mem_singleton] at h
      cases h
      exact (parse_article_record_pmid e _ hr).2
  · split at h
    · rcases List.mem_filterMap.mp h with ⟨c, _, hc⟩
      rcases delStep_eq_some c r hc with ⟨s, _, hs, rfl⟩
      exact hs
    · simp at h

/-! ## C4 -/

/-- A deletion-list element with one `PMID` child whose text is whitespace. -/
def delWhitespace : Elem :=
  .mk "DeleteCitation" [] none none [.mk "PMID" [] (some "   ") none []]

/-- Counterexample to claim C4 as stated: this deletion-list element has one
`PMID` child (`k = 1`) yet the traversal yields zero tombstone records,
because the child's text is whitespace-only. -/
theorem tombstone_count_counterexample :
    (findChildren delWhitespace "PMID").length = 1 ∧
    (iter_records_from_xml_gz [ParseItem.ev delWhitespace]).1 = [] ∧
    (iter_records_from_xml_gz [ParseItem.ev delWhitespace]).1.length
      ≠ (findChildren delWhitespace "PMID").length := by decide

theorem filterMap_delStep_eq (l : List Elem) :
    l.filterMap delStep
      = ((l.filter (fun c => pyStrip (c.text.getD "") ≠ "")).map
          (fun c => tombstone (pyStrip (c.text.getD "")))) := by
  induction l with
  | nil => rfl
  | cons c cs ih =>
    rw [List.filterMap_cons, List.filter_cons]
    cases hd : delStep c with
    | none =>
      rw [delStep_none_strip c hd]
      simpa using ih
    | some r =>
      rcases delStep_eq_some c r hd with ⟨s, hs, hne, rfl⟩
      have hgd : pyStrip (c.text.getD "") = pyStrip s := by simp [hs]
      rw [hgd, if_pos (by simpa using hne)]
      simp only [List.map_cons, hgd]
      simpa using ih

/-- Claim C4 as amended: for every deletion-list element — mixed blank and
non-blank identifier children included — the yielded records are exactly one
tombstone per identifier child with non-empty stripped text, in document
order, each id that child's stripped identifier; so the count is the number of
non-blank identifier children, and every yielded record is deleted with all
other fields empty. -/
theorem tombstones_per_nonblank_pmid (e : Elem) (htag : e.tag = "DeleteCitation") :
    ((iter_records_from_xml_gz [ParseItem.ev e]).1
        = ((findChildren e "PMID").filter (fun c => pyStrip (c.text.getD "") ≠ "")).map
            (fun c => tombstone (pyStrip (c.text.getD "")))) ∧
    ((iter_records_from_xml_gz [ParseItem.ev e]).1.length
        = ((findChildren e "PMID").filter (fun c => pyStrip (c.text.getD "") ≠ "")).length) ∧
    ∀ r ∈ (iter_records_from_xml_gz [ParseItem.ev e]).1,
      r.docno = r.pmid ∧ r.is_deleted = true ∧ r.title = "" ∧ r.abstract = ""
        ∧ r.mesh_terms = "" ∧ r.keywords = [] := by
  have h1 : (iter_records_from_xml_gz [ParseItem.ev e]).1
      = (findChildren e "PMID").filterMap delStep := by
    rw [iter_single]
    exact processEvent_delete e htag
  refine ⟨?_, ?_, ?_⟩
  · rw [h1, filterMap_delStep_eq]
  · rw [h1, filterMap_delStep_eq, List.length_map]
  · intro r hr
    rw [h1] at hr
    exact mem_filterMap_delStep_fields _ r hr

/-- A deletion-list mixing blank and non-blank identifier children. -/
def delBlankMix : Elem :=
  .mk "DeleteCitation" [] none none
    [.mk "PMID" [] (some "1") none [], .mk "PMID" [] (some "   ") none [],
     .mk "PMID" [] none none [], .mk "PMID" [] (some " 2 ") none []]

/-- Witness for C4 (amended), on a mixed deletion-list: of four identifier
children ("1", whitespace, absent text, " 2 "), exactly the two non-blank ones
yield tombstones, ids "1" and "2" in order. -/
theorem tombstones_per_nonblank_pmid_witness :
    (iter_records_from_xml_gz [ParseItem.ev delBlankMix]).1
      = [tombstone "1", tombstone "2"] :=
  ((tombstones_per_nonblank_pmid delBlankMix rfl).1).trans (by decide)

/-! ## C5 -/

theorem partsStep_eq (acc : List String) (a : Elem) :
    partsStep acc a = acc ++ segParts a := by
  simp only [partsStep, segParts]
  by_cases h : segLabel a ≠ "" ∧ segLabel a ≠ "UNASSIGNED"
  · rw [if_pos h, if_pos h, List.append_assoc]
  · rw [if_neg h, if_neg h]
    simp

theorem foldl_partsStep (l : List Elem) :
    ∀ acc : List String, l.foldl partsStep acc = acc ++ l.flatMap segParts := by
  induction l with
  | nil => intro acc; simp
  | cons a as ih =>
    intro acc
    rw [List.foldl_cons, ih, partsStep_eq, List.flatMap_cons, List.append_assoc]

/-- A citation whose first abstract segment has a label but no text. -/
def abstractCexElem : Elem :=
  .mk "MedlineCitation" [] none none
    [.mk "Article" [] none none
      [.mk "Abstract" [] none none
        [.mk "AbstractText" [("Label", "Background")] none none [],
         .mk "AbstractText" [("Label", "Results")] (some "R.") none []]]]

/-- Counterexample to claim C5 as stated: with two segments whose first has an
empty flattened text, the code's abstract drops the empty component before
joining, so it differs from the claim's literal newline-join formula. -/
theorem abstract_formula_counterexample :
    (parse_title_abstract abstractCexElem).2 = "Background\nResults\nR." ∧
    claimAbstract abstractCexElem = "Background\n\nResults\nR." ∧
    (parse_title_abstract abstractCexElem).2 ≠ claimAbstract abstractCexElem := by decide

/-- Claim C5 as amended: the extracted abstract equals the claim's three-case
formula with, in the multi-segment case, the empty components dropped from the
newline-join and the result whitespace-trimmed. -/
theorem abstract_resolution_amended (m : Elem) :
    (parse_title_abstract m).2 = claimAbstractAmended m := by
  cases hA : findChild m "Article" with
  | none => simp [parse_title_abstract, claimAbstractAmended, hA]
  | some article =>
    cases hT : findAllPath2 article "Abstract" "AbstractText" with
    | nil => simp [parse_title_abstract, claimAbstractAmended, hA, hT]
    | cons a rest =>
      cases rest with
      | nil => simp [parse_title_abstract, claimAbstractAmended, hA, hT]
      | cons b r2 =>
        simp only [parse_title_abstract, claimAbstractAmended, hA, hT]
        rw [foldl_partsStep]
        simp

/-! ## C1 -/

/-- Claim C1 (code bug), evaluated at a failing input: the source constructs
`etree.XMLParser(recover=True, huge_tree=True)` but never passes it to
`etree.iterparse`, so a recoverable-class markup defect aborts the shard just
like fatal corruption. With a markup defect between two citations the
traversal aborts after yielding only the first record, where the claim
requires the defect to be skipped and both records yielded — as the
defect-free stream shows would otherwise happen. -/
theorem markup_defect_aborts_shard :
    (iter_records_from_xml_gz
        [ParseItem.ev (sampleCite "1"), ParseItem.markupDefect,
         ParseItem.ev (sampleCite "2")]).2 = true ∧
    (iter_records_from_xml_gz
        [ParseItem.ev (sampleCite "1"), ParseItem.markupDefect,
         ParseItem.ev (sampleCite "2")]).1.map (fun r => r.pmid) = ["1"] ∧
    (iter_records_from_xml_gz
        [ParseItem.ev (sampleCite "1"), ParseItem.ev (sampleCite "2")]).1.map
      (fun r => r.pmid) = ["1", "2"] ∧
    (iter_records_from_xml_gz
        [ParseItem.ev (sampleCite "1"), ParseItem.ev (sampleCite "2")]).2 = false := by decide

/-! ## C2 -/

/-- Claim C2: `xml_gz_to_jsonl` renames the temporary file onto the final
output path exactly when the record sequence is exhausted without a fatal
error, and then the final path holds every record's line and the temporary is
gone; on a fatal error partway through, the final output path is left exactly
as it was (never created or modified). -/
theorem atomic_promotion (items : List ParseItem) (path : String) (fs : FS)
    (h : with_suffix path ".jsonl.partial" ≠ path) :
    ((xml_gz_to_jsonl items path fs).2 ≠ none →
        (xml_gz_to_jsonl items path fs).1 path = fs path) ∧
    ((xml_gz_to_jsonl items path fs).2 = none →
        (xml_gz_to_jsonl items path fs).1 path
            = some (serializeRecords (iter_records_from_xml_gz items).1) ∧
        (xml_gz_to_jsonl items path fs).1 (with_suffix path ".jsonl.partial") = none) ∧
    ((xml_gz_to_jsonl items path fs).2 = none ↔ (iter_records_from_xml_gz items).2 = false) := by
  cases hf : (iter_records_from_xml_gz items).2 with
  | true =>
    have hx : xml_gz_to_jsonl items path fs
        = (fs.write (with_suffix path ".jsonl.partial")
             (serializeRecords (iter_records_from_xml_gz items).1),
           some "unrecoverable parse failure") := by
      unfold xml_gz_to_jsonl
      rw [hf, if_pos rfl]
    rw [hx]
    refine ⟨fun _ => ?_, fun hc => absurd hc (by simp), by simp [hf]⟩
    show FS.write fs _ _ path = fs path
    unfold FS.write
    rw [if_neg (Ne.symm h)]
  | false =>
    have hx : xml_gz_to_jsonl items path fs
        = ((fs.write (with_suffix path ".jsonl.partial")
              (serializeRecords (iter_records_from_xml_gz items).1)).replaceFile
            (with_suffix path ".jsonl.partial") path, none) := by
      unfold xml_gz_to_jsonl
      rw [hf, if_neg (by simp)]
    rw [hx]
    have hw : (fs.write (with_suffix path ".jsonl.partial")
          (serializeRecords (iter_records_from_xml_gz items).1))
            (with_suffix path ".jsonl.partial")
        = some (serializeRecords (iter_records_from_xml_gz items).1) := by
      unfold FS.write
      rw [if_pos rfl]
    refine ⟨fun hc => absurd rfl hc, fun _ => ⟨?_, ?_⟩, by simp⟩
    · show FS.replaceFile _ _ _ path = _
      unfold FS.replaceFile
      rw [hw]
      dsimp only
      rw [if_pos rfl]
    · show FS.replaceFile _ _ _ _ = none
      unfold FS.replaceFile
      rw [hw]
      dsimp only
      rw [if_neg h, if_pos rfl]

/-- Witness for C2: a fatal shard leaves a missing final path missing, and a
clean shard promotes the full serialized record list to the final path with
the temporary removed. -/
theorem atomic_promotion_witness :
    (xml_gz_to_jsonl [ParseItem.ev (sampleCite "7"), ParseItem.fatal] "out/f.jsonl"
        (fun _ => none)).1 "out/f.jsonl" = (fun _ => (none : Option String)) "out/f.jsonl" ∧
    (xml_gz_to_jsonl [ParseItem.ev (sampleCite "7")] "out/f.jsonl" (fun _ => none)).1 "out/f.jsonl"
        = some (serializeRecords
            (iter_records_from_xml_gz [ParseItem.ev (sampleCite "7")]).1) ∧
    (xml_gz_to_jsonl [ParseItem.ev (sampleCite "7")] "out/f.jsonl" (fun _ => none)).1
        (with_suffix "out/f.jsonl" ".jsonl.partial") = none :=
  ⟨(atomic_promotion [ParseItem.ev (sampleCite "7"), ParseItem.fatal] "out/f.jsonl"
      (fun _ => none) (by decide)).1 (by decide),
   (atomic_promotion [ParseItem.ev (sampleCite "7")] "out/f.jsonl"
      (fun _ => none) (by decide)).2.1 (by decide)⟩

/-! ## C3 -/

/-- Claim C3: every record the traversal yields — full record or tombstone —
has a non-empty pmid, and a citation element from which no identifier resolves
yields zero records and no error. -/
theorem every_record_has_id :
    (∀ items r, r ∈ (iter_records_from_xml_gz items).1 → r.pmid ≠ "") ∧
    (∀ e, e.tag = "MedlineCitation" → parse_pmid e = "" → processEvent e = []) := by
  constructor
  · intro items r hr
    unfold iter_records_from_xml_gz iterRecordsEvents at hr
    rcases List.mem_flatMap.mp hr with ⟨e, _, he⟩
    exact mem_processEvent_pmid_ne e r he
  · intro e htag hpmid
    rw [processEvent_citation e htag]
    unfold parse_article_record
    rw [if_pos hpmid]
    rfl

/-- Witness for C3: the record of a concrete citation has a non-empty pmid,
and a concrete citation with no identifier anywhere yields no records. -/
theorem every_record_has_id_witness :
    (tombstone "9").pmid ≠ "" ∧ processEvent citeNoId = [] :=
  ⟨every_record_has_id.1 [ParseItem.ev (.mk "DeleteCitation" [] none none
      [.mk "PMID" [] (some "9") none []])] (tombstone "9") (by decide),
   every_record_has_id.2 citeNoId (by decide) (by decide)⟩


/-! ## C6 -/

theorem parse_pmid_fallback_eq (m : Elem) : parse_pmid_fallback m = pmidAltSpec m := by
  unfold parse_pmid_fallback pmidAltSpec pubmedEntry
  cases h1 : findPath2 m "PubmedData" "ArticleIdList" with
  | none => rfl
  | some ids =>
    dsimp only [Option.bind]
    cases h2 : (ids.children.filter
        (fun c => c.tag = "ArticleId" ∧ c.attrib.lookup "IdType" = some "pubmed")).head? with
    | none => rfl
    | some x =>
      dsimp only
      cases h3 : x.text with
      | none => rfl
      | some st =>
        dsimp only
        by_cases h4 : st = ""
        · subst h4
          rfl
        · rw [if_neg h4]
          rfl

/-- Claim C6: identifier resolution follows the claimed rule — trimmed text of
the direct `PMID` child when that child exists with non-empty text, else the
trimmed text of the pubmed-kind entry of the nested `ArticleIdList` when
present, else empty — and a citation whose identifier resolves empty produces
no record. -/
theorem pmid_resolution_spec (m : Elem) :
    parse_pmid m = pmidSpec m ∧ (parse_pmid m = "" → parse_article_record m = none) := by
  constructor
  · unfold parse_pmid pmidSpec
    cases hp : findChild m "PMID" with
    | none => exact parse_pmid_fallback_eq m
    | some p =>
      dsimp only
      cases ht : p.text with
      | none => exact parse_pmid_fallback_eq m
      | some st =>
        dsimp only
        by_cases h4 : st = ""
        · rw [if_pos h4, if_neg (not_not_intro h4)]
          exact parse_pmid_fallback_eq m
        · rw [if_neg h4, if_pos h4]
  · exact parse_article_record_none m

/-- A citation whose identifier only lives in the `ArticleIdList` fallback. -/
def altIdCite : Elem :=
  .mk "MedlineCitation" [] none none
    [.mk "PubmedData" [] none none
      [.mk "ArticleIdList" [] none none
        [.mk "ArticleId" [("IdType", "doi")] (some "10.1/x") none [],
         .mk "ArticleId" [("IdType", "pubmed")] (some " 42 ") none []]]]

/-- Witness for C6: the fallback resolves `" 42 "` to `"42"` on a citation with
no direct `PMID` child, and a citation with no identifier anywhere yields no
record. -/
theorem pmid_resolution_spec_witness :
    parse_pmid altIdCite = "42" ∧ parse_article_record citeNoId = none :=
  ⟨(pmid_resolution_spec altIdCite).1.trans (by decide),
   (pmid_resolution_spec citeNoId).2 (by decide)⟩

/-! ## C7 -/

/-- A citation whose only keyword sits one level deeper than a direct child of
its `KeywordList`. -/
def nestedKeywordElem : Elem :=
  .mk "MedlineCitation" [] none none
    [.mk "KeywordList" [] none none
      [.mk "Wrap" [] none none [.mk "Keyword" [] (some "x") none []]]]

/-- Counterexample to claim C7 as stated: a `Keyword` leaf anywhere under a
keyword-list is claimed to be collected, but the fallback collects only direct
`Keyword` children of a `KeywordList`, so this nested keyword is missed. -/
theorem keywords_fallback_counterexample :
    parse_keywords nestedKeywordElem = [] ∧
    keywordsClaim nestedKeywordElem = ["x"] ∧
    parse_keywords nestedKeywordElem ≠ keywordsClaim nestedKeywordElem := by decide

theorem filterMap_strip_filter (l : List Elem) :
    (l.filterMap (fun kw => let t := pyStrip (kw.text.getD ""); if t = "" then none else some t))
      = (l.map (fun kw => pyStrip (kw.text.getD ""))).filter (fun t => t ≠ "") := by
  induction l with
  | nil => rfl
  | cons c cs ih =>
    rw [List.filterMap_cons, List.map_cons, List.filter_cons]
    by_cases h : pyStrip (c.text.getD "") = ""
    · simp only [h, if_pos rfl]
      simpa using ih
    · simp only [if_neg h]
      simp [ih, h]

/-- Claim C7 as amended: with the enriched extraction unavailable, the fallback
yields, in document order, the trimmed non-empty immediate texts of the
`Keyword` elements that are direct children of a `KeywordList` element found
at any depth. -/
theorem keywords_fallback_amended (m : Elem) : parse_keywords m = keywordsAmended m := by
  unfold parse_keywords keywordsAmended
  rw [filterMap_strip_filter]

/-! ## C8 -/

theorem readerEvents_map_ev (events : List Elem) :
    readerEvents (events.map ParseItem.ev) = (events, false) := by
  induction events with
  | nil => rfl
  | cons e es ih => simp [readerEvents, ih]

theorem iter_map_ev (events : List Elem) :
    (iter_records_from_xml_gz (events.map ParseItem.ev)).1 = events.flatMap processEvent := by
  unfold iter_records_from_xml_gz
  rw [readerEvents_map_ev]
  rfl

theorem flatMap_processEvent_citations (events : List Elem)
    (hno : ∀ e ∈ events, e.tag ≠ "DeleteCitation")
    (hid : ∀ e ∈ events, e.tag = "MedlineCitation" → parse_pmid e ≠ "") :
    (events.flatMap processEvent).map (fun r => r.pmid)
      = (events.filter (fun e => e.tag = "MedlineCitation")).map parse_pmid := by
  induction events with
  | nil => rfl
  | cons e es ih =>
    have hno2 : ∀ x ∈ es, x.tag ≠ "DeleteCitation" :=
      fun x hx => hno x (List.mem_cons_of_mem e hx)
    have hid2 : ∀ x ∈ es, x.tag = "MedlineCitation" → parse_pmid x ≠ "" :=
      fun x hx => hid x (List.mem_cons_of_mem e hx)
    rw [List.flatMap_cons, List.filter_cons, List.map_append]
    by_cases hc : e.tag = "MedlineCitation"
    · rw [processEvent_citation e hc,
        parse_article_record_eq e (hid e (List.mem_cons_self e es) hc)]
      simp [ih hno2 hid2, hc]
    · rw [processEvent_other e hc (hno e (List.mem_cons_self e es))]
      simp [ih hno2 hid2, hc]

/-- Claim C8 as amended: for a shard whose events hold no deletion-list
element and whose citation elements each resolve a non-empty identifier, the
traversal yields one record per citation element, the record ids are the
citations' identifiers in document order, and they are pairwise distinct
whenever those identifiers are. -/
theorem citation_shard_counts (events : List Elem)
    (hno : ∀ e ∈ events, e.tag ≠ "DeleteCitation")
    (hid : ∀ e ∈ events, e.tag = "MedlineCitation" → parse_pmid e ≠ "") :
    ((iter_records_from_xml_gz (events.map ParseItem.ev)).1.length
        = (events.filter (fun e => e.tag = "MedlineCitation")).length) ∧
    ((iter_records_from_xml_gz (events.map ParseItem.ev)).1.map (fun r => r.pmid)
        = (events.filter (fun e => e.tag = "MedlineCitation")).map parse_pmid) ∧
    (((events.filter (fun e => e.tag = "MedlineCitation")).map parse_pmid).Nodup →
        ((iter_records_from_xml_gz (events.map ParseItem.ev)).1.map (fun r => r.pmid)).Nodup) := by
  have hmap : (iter_records_from_xml_gz (events.map ParseItem.ev)).1.map (fun r => r.pmid)
      = (events.filter (fun e => e.tag = "MedlineCitation")).map parse_pmid := by
    rw [iter_map_ev]
    exact flatMap_processEvent_citations events hno hid
  refine ⟨?_, hmap, fun hd => hmap ▸ hd⟩
  rw [← List.length_map (iter_records_from_xml_gz (events.map ParseItem.ev)).1
    (fun r => r.pmid), hmap, List.length_map]

/-- Counterexample to claim C8 as stated: a shard of two well-formed citation
elements sharing the identifier `"7"` yields one record per citation, but the
yielded ids are not pairwise distinct. -/
theorem citation_shard_counterexample :
    ((iter_records_from_xml_gz ([sampleCite "7", sampleCite "7"].map ParseItem.ev)).1.map
        (fun r => r.pmid) = ["7", "7"]) ∧
    ([sampleCite "7", sampleCite "7"].filter (fun e => e.tag = "MedlineCitation")).length = 2 ∧
    (iter_records_from_xml_gz ([sampleCite "7", sampleCite "7"].map ParseItem.ev)).1.length = 2 ∧
    ¬ ((iter_records_from_xml_gz ([sampleCite "7", sampleCite "7"].map ParseItem.ev)).1.map
        (fun r => r.pmid)).Nodup := by decide

/-- Witness for C8 (amended): a shard with citations `"1"`, `"2"` and an inert
wrapper element yields exactly the ids `["1", "2"]`, pairwise distinct. -/
theorem citation_shard_counts_witness :
    ((iter_records_from_xml_gz
        ([sampleCite "1", Elem.mk "Other" [] none none [], sampleCite "2"].map
          ParseItem.ev)).1.map (fun r => r.pmid) = ["1", "2"]) ∧
    ((iter_records_from_xml_gz
        ([sampleCite "1", Elem.mk "Other" [] none none [], sampleCite "2"].map
          ParseItem.ev)).1.map (fun r => r.pmid)).Nodup :=
  ⟨(citation_shard_counts [sampleCite "1", Elem.mk "Other" [] none none [], sampleCite "2"]
      (by decide) (by decide)).2.1.trans (by decide),
   (citation_shard_counts [sampleCite "1", Elem.mk "Other" [] none none [], sampleCite "2"]
      (by decide) (by decide)).2.2 (by decide)⟩

/-! ## C9 -/

/-- A trivial childless sibling element the extractor never visits. -/
def junkElem : Elem := .mk "Junk" [] (some "t") none []

/-- A document whose root holds five trivial siblings and nothing else. -/
def junkDoc : Elem :=
  .mk "PubmedArticleSet" [] none none [junkElem, junkElem, junkElem, junkElem, junkElem]

/-- Claim C9 evaluated at a failing input: record-kind elements are indeed
cleared immediately (`clearsAt` is true for them), but an unrecognized element
is cleared only at its own end event and only when it then has more than 1000
children — so the five completed trivial siblings of `junkDoc` are never
released, and the resident node count grows linearly with the number of
elements already processed (1, 2, …, 6) even though every in-flight subtree
is a single node. -/
theorem resident_memory_growth :
    residentAfter junkDoc 1 = 1 ∧ residentAfter junkDoc 2 = 2 ∧
    residentAfter junkDoc 3 = 3 ∧ residentAfter junkDoc 4 = 4 ∧
    residentAfter junkDoc 5 = 5 ∧ residentAfter junkDoc 6 = 6 ∧
    clearsAt junkElem = false ∧ clearsAt junkDoc = false ∧
    clearsAt (sampleCite "1") = true ∧
    clearsAt (Elem.mk "DeleteCitation" [] none none []) = true := by decide

/-! ## C10 -/

/-- Claim C10: for a deletion-list element, the yielded tombstone ids are
exactly the stripped texts of its `PMID` children with the blank ones (absent,
empty or whitespace-only text) filtered out, and every yielded record has
`docno = pmid` and is marked deleted. -/
theorem tombstone_blank_pmid_filter (e : Elem) (htag : e.tag = "DeleteCitation") :
    ((iter_records_from_xml_gz [ParseItem.ev e]).1.map (fun r => r.pmid)
        = ((findChildren e "PMID").map (fun c => pyStrip (c.text.getD ""))).filter
            (fun t => t ≠ "")) ∧
    ∀ r ∈ (iter_records_from_xml_gz [ParseItem.ev e]).1,
      r.docno = r.pmid ∧ r.is_deleted = true := by
  have h1 : (iter_records_from_xml_gz [ParseItem.ev e]).1
      = (findChildren e "PMID").filterMap delStep := by
    rw [iter_single]
    exact processEvent_delete e htag
  constructor
  · rw [h1, map_pmid_filterMap_delStep]
  · intro r hr
    rw [h1] at hr
    have hf := mem_filterMap_delStep_fields _ r hr
    exact ⟨hf.1, hf.2.1⟩

/-- A deletion-list mixing an absent text, a whitespace-only text and a
paddable good text. -/
def delMixed : Elem :=
  .mk "DeleteCitation" [] none none
    [.mk "PMID" [] none none [], .mk "PMID" [] (some "  ") none [],
     .mk "PMID" [] (some " 7 ") none []]

/-- Witness for C10: of three `PMID` children (absent text, whitespace text,
`" 7 "`), only the stripped `"7"` becomes a tombstone id. -/
theorem tombstone_blank_pmid_filter_witness :
    (iter_records_from_xml_gz [ParseItem.ev delMixed]).1.map (fun r => r.pmid) = ["7"] :=
  ((tombstone_blank_pmid_filter delMixed rfl).1).trans (by decide)

end PubmedParse
